import Mathlib

/-!
Verification development for the drewit collaborative-drawing repository.

The definitions below are a shallow embedding of the replication and
persistence protocol: the JSON values handled by the HTTP endpoints
(server.js, api/drawing.js, the pusher-trigger handlers), the tldraw
document store as an association list of typed records, the change
accumulator and throttler of src/hooks/usePusherPersistence.ts, and the
inbound diff application bound to the drawing-diff channel event.
-/

namespace Drewit

/-- JVal models the JSON values the JavaScript handlers pass around:
null, strings, integers, booleans and objects with string keys. -/
inductive JVal where
  | null : JVal
  | jstr : String → JVal
  | jnum : Int → JVal
  | jbool : Bool → JVal
  | jobj : List (String × JVal) → JVal
deriving Repr

/-- Decidable equality for JVal, written out because the constructor
for objects nests JVal inside a list. -/
def JVal.beq : JVal → JVal → Bool
  | .null, .null => true
  | .jstr a, .jstr b => a == b
  | .jnum a, .jnum b => a == b
  | .jbool a, .jbool b => a == b
  | .jobj a, .jobj b => beqFields a b
  | _, _ => false
where beqFields : List (String × JVal) → List (String × JVal) → Bool
  | [], [] => true
  | (k, v) :: r, (k2, v2) :: r2 => k == k2 && beq v v2 && beqFields r r2
  | _, _ => false

/-- JavaScript truthiness of a JVal: null, the empty string, zero and
false are falsy; every object (including the empty object) is truthy. -/
def JVal.truthy : JVal → Bool
  | .null => false
  | .jstr s => !(s == "")
  | .jnum n => !(n == 0)
  | .jbool b => b
  | .jobj _ => true

/-- Field lookup on a JSON object; none on non-objects. -/
def jGet : JVal → String → Option JVal
  | .jobj fields, key => go fields key
  | _, _ => none
where go : List (String × JVal) → String → Option JVal
  | [], _ => none
  | (k, v) :: rest, key => if k == key then some v else go rest key

mutual
/-- Serialized JSON length of a value, the measure the realtime
transport applies its hard message-size limit to. -/
def jsonSize : JVal → Nat
  | .null => 4
  | .jstr s => s.length + 2
  | .jnum n => (toString n).length
  | .jbool b => if b then 4 else 5
  | .jobj fields => 2 + jsonSizeFields fields

/-- Serialized length of the fields of a JSON object: every field
contributes quoted key, colon and value, with commas in between. -/
def jsonSizeFields : List (String × JVal) → Nat
  | [] => 0
  | [(k, v)] => k.length + 3 + jsonSize v
  | (k, v) :: rest => k.length + 3 + jsonSize v + 1 + jsonSizeFields rest
end

/-- Lookup in an association list keyed by strings, as a JavaScript
object is: the first binding for a key wins. -/
def alookup {α : Type} : List (String × α) → String → Option α
  | [], _ => none
  | (k, v) :: rest, key => if k == key then some v else alookup rest key

/-- Assignment obj[key] = v on a JavaScript object: overwrite the
binding in place when the key is present, append it otherwise. -/
def aset {α : Type} : List (String × α) → String → α → List (String × α)
  | [], key, v => [(key, v)]
  | (k, w) :: rest, key, v =>
    if k == key then (k, v) :: rest else (k, w) :: aset rest key v

/-- Deletion of a key from a JavaScript-object-like association list. -/
def adel {α : Type} (m : List (String × α)) (key : String) : List (String × α) :=
  m.filter (fun p => !(p.1 == key))

theorem alookup_aset {α : Type} (m : List (String × α)) (k key : String) (v : α) :
    alookup (aset m k v) key = if k == key then some v else alookup m key := by
  induction m with
  | nil => cases h : (k == key) <;> simp [aset, alookup, h]
  | cons p rest ih =>
    obtain ⟨pk, pv⟩ := p
    cases hpk : (pk == k) <;> cases hk : (k == key) <;> cases hpkey : (pk == key) <;>
      simp_all [aset, alookup]

theorem alookup_adel {α : Type} (m : List (String × α)) (k key : String) :
    alookup (adel m k) key = if k == key then none else alookup m key := by
  induction m with
  | nil => cases h : (k == key) <;> simp [adel, alookup, h]
  | cons p rest ih =>
    obtain ⟨pk, pv⟩ := p
    cases hpk : (pk == k) <;> cases hk : (k == key) <;> cases hpkey : (pk == key) <;>
      simp_all [adel, alookup, List.filter_cons]

theorem alookup_map_value {α β : Type} (f : α → β) (m : List (String × α)) (key : String) :
    alookup (m.map (fun p => (p.1, f p.2))) key = (alookup m key).map f := by
  induction m with
  | nil => simp [alookup]
  | cons p rest ih =>
    by_cases h : p.1 == key <;> simp [alookup, h, ih]

/-- Rec models one tldraw record: a unique id, a typeName giving its
kind (shape, asset, page, document, camera, instance, pointer, ...)
and an opaque payload standing for the remaining fields. -/
structure Rec where
  id : String
  typeName : String
  payload : Int
deriving Repr, DecidableEq

/-- Store models the in-memory tldraw document store as a JavaScript
object keyed by record id. -/
abbrev Store := List (String × Rec)

/-- One store.put of a single record: the store keys it by its id. -/
def putRecord (st : Store) (r : Rec) : Store := aset st r.id r

/-- store.put over a list of records, first to last. -/
def putAll (st : Store) (rs : List Rec) : Store := rs.foldl putRecord st

/-- The removal loop of the drawing-diff handler: one store.remove per
id listed in the removed set. -/
def removeAll (st : Store) (ids : List String) : Store := ids.foldl adel st

/-- Diff is the shape shared by a tldraw change set and the pending
diff of usePusherPersistence.ts: added maps id to record, updated maps
id to the (old, new) pair, removed maps id to the removed record. -/
structure Diff where
  added : List (String × Rec)
  updated : List (String × (Rec × Rec))
  removed : List (String × Rec)
deriving Repr, DecidableEq

/-- The empty pending diff, as pendingChangesRef is reset to. -/
def Diff.empty : Diff := ⟨[], [], []⟩

/-- applyDiff is the drawing-diff channel handler of
usePusherPersistence.ts: inside one mergeRemoteChanges call it removes
every id of the removed set, then puts all added records followed by
the new value of every updated pair. -/
def applyDiff (st : Store) (d : Diff) : Store :=
  let afterRemove := removeAll st (d.removed.map (fun p => p.1))
  let toPut := (d.added.map (fun p => p.2)) ++ (d.updated.map (fun p => p.2.2))
  putAll afterRemove toPut

theorem alookup_removeAll (st : Store) (ids : List String) (key : String) :
    alookup (removeAll st ids) key =
      if ids.contains key then none else alookup st key := by
  induction ids generalizing st with
  | nil => simp [removeAll]
  | cons i rest ih =>
    have hstep : removeAll st (i :: rest) = removeAll (adel st i) rest := rfl
    rw [hstep, ih]
    cases hik : (i == key)
    · have hne : ¬ key = i := by
        intro h; subst h; simp at hik
      simp [List.contains_cons, hik, alookup_adel, hne]
    · have heq : key = i := by
        have : i = key := by simpa using hik
        exact this.symm
      subst heq
      simp [List.contains_cons, alookup_adel]

/-- The record that survives a sequence of puts for a given key: the
last record in the list whose id is the key. -/
def lastPut (rs : List Rec) (key : String) : Option Rec :=
  rs.foldl (fun acc r => if r.id == key then some r else acc) none

theorem lastPut_foldl (rest : List Rec) (acc : Option Rec) (key : String) :
    rest.foldl (fun a r => if r.id == key then some r else a) acc =
      match rest.foldl (fun a r => if r.id == key then some r else a) none with
      | some x => some x
      | none => acc := by
  induction rest generalizing acc with
  | nil => simp
  | cons r rest ih =>
    simp only [List.foldl_cons]
    cases h : (r.id == key)
    · simp only [h, Bool.false_eq_true, if_false]
      exact ih acc
    · simp only [h, if_true]
      rw [ih (some r)]
      cases hN : rest.foldl (fun a r => if r.id == key then some r else a) none <;> simp

theorem lastPut_cons (r : Rec) (rest : List Rec) (key : String) :
    lastPut (r :: rest) key =
      match lastPut rest key with
      | some x => some x
      | none => if r.id == key then some r else none := by
  show rest.foldl _ (if r.id == key then some r else none) = _
  exact lastPut_foldl rest _ key

theorem alookup_putAll (st : Store) (rs : List Rec) (key : String) :
    alookup (putAll st rs) key =
      match lastPut rs key with
      | some r => some r
      | none => alookup st key := by
  induction rs generalizing st with
  | nil => simp [putAll, lastPut]
  | cons r rest ih =>
    have hstep : putAll st (r :: rest) = putAll (putRecord st r) rest := rfl
    rw [hstep, ih, lastPut_cons]
    cases hN : lastPut rest key
    · simp only []
      rw [putRecord, alookup_aset]
      cases h : (r.id == key) <;> simp [h]
    · simp

/-- Lookup characterization of one inbound diff application: a put
record with the key wins (the last one put), otherwise a removed key
reads as absent, otherwise the store is untouched at that key. -/
theorem alookup_applyDiff (st : Store) (d : Diff) (key : String) :
    alookup (applyDiff st d) key =
      match lastPut ((d.added.map (fun p => p.2)) ++ (d.updated.map (fun p => p.2.2))) key with
      | some r => some r
      | none =>
        if (d.removed.map (fun p => p.1)).contains key then none
        else alookup st key := by
  rw [applyDiff]
  rw [alookup_putAll, alookup_removeAll]

/-- C9: applying the same inbound diff twice through the drawing-diff
handler (remove all removed ids, then put all added records and the
new values of updated) yields the same record set as applying it once:
lookup after the double application agrees with lookup after one
application at every key. -/
theorem c9_apply_idempotent (st : Store) (d : Diff) (key : String) :
    alookup (applyDiff (applyDiff st d) d) key = alookup (applyDiff st d) key := by
  rw [alookup_applyDiff (applyDiff st d) d key, alookup_applyDiff st d key]
  cases hP : lastPut ((d.added.map (fun p => p.2)) ++ (d.updated.map (fun p => p.2.2))) key <;>
    cases hR : (d.removed.map (fun p => p.1)).contains key <;>
      simp [hP, hR]

/-- Source tag of a store update: user for local human edits, remote
for changes applied inside mergeRemoteChanges. -/
inductive Source where
  | user : Source
  | remote : Source
deriving Repr, DecidableEq

/-- StoreUpdate is the argument the tldraw store passes to a listener:
the change set together with its source tag. -/
structure StoreUpdate where
  source : Source
  changes : Diff
deriving Repr, DecidableEq

/-- The network effects the outbound listener of
usePusherPersistence.ts can request on one invocation. -/
inductive Effect where
  | broadcast : Diff → Effect
  | throttledSave : Effect
  | immediateSave : Effect
deriving Repr, DecidableEq

/-- Mutable client state of the hook that the listener touches:
isDirtyRef and pendingChangesRef. -/
structure ClientState where
  isDirty : Bool
  pending : Diff
deriving Repr, DecidableEq

/-- Kinds the accumulator of usePusherPersistence.ts lets through. -/
def durableKind (t : String) : Bool := t == "shape" || t == "asset"

/-- accumulate is the accumulation part of the store.listen callback
of usePusherPersistence.ts: each added, updated and removed entry whose
record (for updated, the new value) has typeName shape or asset is
written into the corresponding field of the pending diff under its id;
the boolean records whether an added or updated asset was seen. -/
def accumulate (pending : Diff) (c : Diff) : Diff × Bool :=
  let s1 := c.added.foldl
    (fun (acc : Diff × Bool) e =>
      let t := e.2.typeName
      if t == "shape" || t == "asset" then
        ({ acc.1 with added := aset acc.1.added e.1 e.2 }, acc.2 || t == "asset")
      else acc)
    (pending, false)
  let s2 := c.updated.foldl
    (fun (acc : Diff × Bool) e =>
      let t := e.2.2.typeName
      if t == "shape" || t == "asset" then
        ({ acc.1 with updated := aset acc.1.updated e.1 e.2 }, acc.2 || t == "asset")
      else acc)
    s1
  let s3 := c.removed.foldl
    (fun (acc : Diff × Bool) e =>
      let t := e.2.typeName
      if t == "shape" || t == "asset" then
        ({ acc.1 with removed := aset acc.1.removed e.1 e.2 }, acc.2)
      else acc)
    s2
  s3

/-- listenCallback is the store.listen callback registered by
usePusherPersistence.ts with scope document: it ignores updates whose
source is not user; otherwise it marks the state dirty, accumulates
the filtered changes, and either requests an immediate full save (when
an asset was added or updated, leaving the pending diff in place) or
drains the pending diff and requests a throttled broadcast of the
drained diff followed by a throttled save. -/
def listenCallback (u : StoreUpdate) (s : ClientState) : ClientState × List Effect :=
  if u.source = Source.user then
    let acc := accumulate s.pending u.changes
    if acc.2 then
      ({ isDirty := true, pending := acc.1 }, [Effect.immediateSave])
    else
      ({ isDirty := true, pending := Diff.empty },
        [Effect.broadcast acc.1, Effect.throttledSave])
  else (s, [])

/-- inboundApply is the drawing-diff handler seen from the store: the
merge runs inside mergeRemoteChanges, so the update the store emits
for it carries the remote source tag. -/
def inboundApply (st : Store) (d : Diff) : Store × StoreUpdate :=
  (applyDiff st d, { source := Source.remote, changes := d })

/-- Concrete shape record used in counterexamples and witnesses. -/
def recS1 : Rec := ⟨"shape:s1", "shape", 1⟩

/-- Second concrete shape record. -/
def recS2 : Rec := ⟨"shape:s2", "shape", 2⟩

/-- Third concrete shape record. -/
def recS3 : Rec := ⟨"shape:s3", "shape", 3⟩

/-- Concrete asset record. -/
def recAsset : Rec := ⟨"asset:a1", "asset", 4⟩

/-- Concrete camera record, a session-scoped kind. -/
def recCamera : Rec := ⟨"camera:c1", "camera", 5⟩

/-- C3: a diff applied through the inbound merge path is never
observed as a source user change, and feeding the update it generates
to the outbound listener leaves the client state unchanged and
produces no broadcast request and no save request. -/
theorem c3_no_feedback_loop (st : Store) (d : Diff) (cs : ClientState) :
    (inboundApply st d).2.source ≠ Source.user ∧
      listenCallback (inboundApply st d).2 cs = (cs, []) := by
  constructor
  · intro h
    simp [inboundApply] at h
  · simp [inboundApply, listenCallback]

/-- C4 counterexample: a record id added and then removed within the
same accumulation window is not dropped from the pending diff; it
stays in the added map and also appears in the removed map, so the
dispatched diff mentions it twice instead of not at all. -/
theorem c4_counterexample :
    alookup ((accumulate (accumulate Diff.empty ⟨[("shape:s1", recS1)], [], []⟩).1
        ⟨[], [], [("shape:s1", recS1)]⟩).1).added "shape:s1" = some recS1 ∧
      alookup ((accumulate (accumulate Diff.empty ⟨[("shape:s1", recS1)], [], []⟩).1
        ⟨[], [], [("shape:s1", recS1)]⟩).1).removed "shape:s1" = some recS1 := by
  decide

/-- C4 as amended: the accumulator stores each change kind in its own
field map keyed by id, with no merging across fields. An id added then
removed in the same window appears in both the added and the removed
map of the pending diff; an id updated after having been added stays
in added with its original value and additionally appears in updated
with the latest pair; a removed entry does not erase a prior updated
entry for the same id. -/
theorem c4_accumulator_amended (p : Diff) (id : String) (r r2 rOld rNew : Rec)
    (hr : durableKind r.typeName = true)
    (hr2 : durableKind r2.typeName = true)
    (hrN : durableKind rNew.typeName = true) :
    (alookup ((accumulate (accumulate p ⟨[(id, r)], [], []⟩).1 ⟨[], [], [(id, r2)]⟩).1).added id
        = some r ∧
      alookup ((accumulate (accumulate p ⟨[(id, r)], [], []⟩).1 ⟨[], [], [(id, r2)]⟩).1).removed id
        = some r2) ∧
    (alookup ((accumulate (accumulate p ⟨[(id, r)], [], []⟩).1
          ⟨[], [(id, (rOld, rNew))], []⟩).1).added id = some r ∧
      alookup ((accumulate (accumulate p ⟨[(id, r)], [], []⟩).1
          ⟨[], [(id, (rOld, rNew))], []⟩).1).updated id = some (rOld, rNew)) ∧
    (alookup ((accumulate (accumulate p ⟨[], [(id, (rOld, rNew))], []⟩).1
          ⟨[], [], [(id, r2)]⟩).1).updated id = some (rOld, rNew) ∧
      alookup ((accumulate (accumulate p ⟨[], [(id, (rOld, rNew))], []⟩).1
          ⟨[], [], [(id, r2)]⟩).1).removed id = some r2) := by
  have hrp : r.typeName = "shape" ∨ r.typeName = "asset" := by
    simpa [durableKind] using hr
  have hr2p : r2.typeName = "shape" ∨ r2.typeName = "asset" := by
    simpa [durableKind] using hr2
  have hrNp : rNew.typeName = "shape" ∨ rNew.typeName = "asset" := by
    simpa [durableKind] using hrN
  rcases hrp with h1 | h1 <;> rcases hr2p with h2 | h2 <;> rcases hrNp with h3 | h3 <;>
    simp [accumulate, h1, h2, h3, alookup_aset]

/-- C4 witness: the amended accumulator behavior evaluated at a
concrete add-then-remove window for shape s1. -/
theorem c4_witness :
    alookup ((accumulate (accumulate Diff.empty ⟨[("shape:s1", recS1)], [], []⟩).1
        ⟨[], [], [("shape:s1", recS1)]⟩).1).added "shape:s1" = some recS1 :=
  ((c4_accumulator_amended Diff.empty "shape:s1" recS1 recS1 recS1 recS1
    (by decide) (by decide) (by decide)).1).1

/-- ThrottleState is the closure state of createThrottler in
usePusherPersistence.ts: lastCall, the scheduled timeout (as the
absolute time it will fire, none when no timeout is scheduled) and the
captured pendingArgs of the latest call. -/
structure ThrottleState where
  lastCall : Nat
  timeoutAt : Option Nat
  pendingArgs : Option Diff
deriving Repr, DecidableEq

/-- Broadcast throttle delay of usePusherPersistence.ts, 60 ms. -/
def broadcastDelay : Nat := 60

/-- The execute closure of createThrottler at time t: record the call
time, clear the timeout, invoke the wrapped function with pendingArgs
when present and clear them; the returned list is what was invoked. -/
def execThrottle (t : Nat) (s : ThrottleState) : ThrottleState × List Diff :=
  match s.pendingArgs with
  | some d => (⟨t, none, none⟩, [d])
  | none => (⟨t, none, none⟩, [])

/-- One call of the throttled function at time t with argument d:
pendingArgs is overwritten with d; when the delay has elapsed since
lastCall the execute closure runs at once (clearing any timeout),
otherwise a timeout is scheduled for lastCall plus delay unless one is
already scheduled. -/
def callThrottle (t : Nat) (d : Diff) (s : ThrottleState) : ThrottleState × List Diff :=
  let s1 : ThrottleState := { s with pendingArgs := some d }
  if broadcastDelay ≤ t - s1.lastCall then
    execThrottle t s1
  else
    match s1.timeoutAt with
    | none => ({ s1 with timeoutAt := some (s1.lastCall + broadcastDelay) }, [])
    | some _ => (s1, [])

/-- The scheduled timeout firing at time t: runs the execute closure
when a timeout for exactly that time is pending, otherwise a no-op. -/
def fireThrottle (t : Nat) (s : ThrottleState) : ThrottleState × List Diff :=
  match s.timeoutAt with
  | some t0 => if t0 == t then execThrottle t s else (s, [])
  | none => (s, [])

/-- One event of the single-threaded client timeline: a local user
edit delivering a change set at a given time, or the broadcast
throttle timeout firing. -/
inductive SimEvent where
  | edit : Nat → Diff → SimEvent
  | timer : Nat → SimEvent
deriving Repr

/-- Combined state of the listener and the broadcast throttler plus
the diffs dispatched to the broadcast endpoint so far, in order. -/
structure SimState where
  client : ClientState
  thr : ThrottleState
  sent : List Diff
deriving Repr, DecidableEq

/-- One step of the client timeline: an edit runs the store.listen
callback with source user, and every broadcast effect it requests is a
call of the throttled broadcast function at that time; a timer event
fires the throttle timeout. -/
def simStep (s : SimState) (e : SimEvent) : SimState :=
  match e with
  | SimEvent.edit t c =>
    let r := listenCallback ⟨Source.user, c⟩ s.client
    let fold := r.2.foldl
      (fun (acc : ThrottleState × List Diff) eff =>
        match eff with
        | Effect.broadcast d =>
          let step := callThrottle t d acc.1
          (step.1, acc.2 ++ step.2)
        | _ => acc)
      (s.thr, [])
    ⟨r.1, fold.1, s.sent ++ fold.2⟩
  | SimEvent.timer t =>
    let step := fireThrottle t s.thr
    ⟨s.client, step.1, s.sent ++ step.2⟩

/-- Initial simulation state: clean client, throttler with lastCall 0,
no timeout, no pending arguments, nothing sent. -/
def initSim : SimState := ⟨⟨false, Diff.empty⟩, ⟨0, none, none⟩, []⟩

/-- Run a client timeline from the initial state. -/
def runSim (evts : List SimEvent) : SimState := evts.foldl simStep initSim

/-- The failing timeline for drain atomicity: three shape edits at
1000, 1010 and 1020 ms, then the scheduled trailing-edge timeout at
1060 ms. -/
def c2Trace : List SimEvent :=
  [SimEvent.edit 1000 ⟨[("shape:s1", recS1)], [], []⟩,
   SimEvent.edit 1010 ⟨[("shape:s2", recS2)], [], []⟩,
   SimEvent.edit 1020 ⟨[("shape:s3", recS3)], [], []⟩,
   SimEvent.timer 1060]

/-- C2 is violated by the code: on three edits where the second and
third fall strictly between two throttle firings, the listener drains
the accumulator on every edit into a separate diff, and the throttler
keeps only the latest pendingArgs, so the dispatch at the trailing
firing is the third edit alone and the second edit is dispatched in no
diff at all, instead of the merge of both edits. -/
theorem c2_drain_atomicity_bug :
    (runSim c2Trace).sent =
      [⟨[("shape:s1", recS1)], [], []⟩, ⟨[("shape:s3", recS3)], [], []⟩] ∧
      (∀ d ∈ (runSim c2Trace).sent, alookup d.added "shape:s2" = none) := by
  decide

/-- Truthiness of an optional string request field: absent and the
empty string are falsy, as under the JavaScript or-operator. -/
def strTruthy : Option String → Bool
  | none => false
  | some s => !(s == "")

/-- resolveId is the id defaulting of api/drawing.js: query id, else
body id, else the fixed identity global-canvas, where absent and
empty-string ids are falsy. -/
def resolveId (queryId bodyId : Option String) : String :=
  if strTruthy queryId then queryId.getD ""
  else if strTruthy bodyId then bodyId.getD ""
  else "global-canvas"

/-- HTTP response: status code and JSON body. -/
structure HResp where
  status : Nat
  body : JVal
deriving Repr

/-- The GET branch of the drawing endpoint: look the row up by id;
a missing row answers 200 with JSON null, a present row answers 200
with the stored snapshot, a storage failure answers 500. dbUp models
whether the database operation succeeds. -/
def drawingGet (db : List (String × JVal)) (dbUp : Bool) (id : String) : HResp :=
  if dbUp then
    match alookup db id with
    | none => ⟨200, JVal.null⟩
    | some snap => ⟨200, snap⟩
  else ⟨500, JVal.jobj [("error", JVal.jstr "GET Error")]⟩

/-- The POST branch of the drawing endpoint: a falsy snapshot field is
rejected with 400 and the store untouched; otherwise the row for the
id is upserted and the endpoint answers 200 with a success true body
(api/drawing.js also includes a timestamp field); a storage failure
answers 500 with the store untouched. -/
def drawingPost (db : List (String × JVal)) (dbUp : Bool) (id : String)
    (snapshot : Option JVal) : List (String × JVal) × HResp :=
  match snapshot with
  | some s =>
    if s.truthy then
      if dbUp then
        (aset db id s,
          ⟨200, JVal.jobj [("success", JVal.jbool true), ("timestamp", JVal.jnum 0)]⟩)
      else (db, ⟨500, JVal.jobj [("error", JVal.jstr "Database Error")]⟩)
    else (db, ⟨400, JVal.jobj [("error", JVal.jstr "Snapshot is required")]⟩)
  | none => (db, ⟨400, JVal.jobj [("error", JVal.jstr "Snapshot is required")]⟩)

/-- HTTP method of a request to the drawing endpoint. -/
inductive Method where
  | get : Method
  | post : Method
deriving Repr, DecidableEq

/-- drawingHandler is the handler of api/drawing.js: resolve the id
from query id, body id or the global-canvas default, then dispatch on
the method. -/
def drawingHandler (m : Method) (queryId bodyId : Option String) (snapshot : Option JVal)
    (db : List (String × JVal)) (dbUp : Bool) : List (String × JVal) × HResp :=
  let id := resolveId queryId bodyId
  match m with
  | Method.get => (db, drawingGet db dbUp id)
  | Method.post => drawingPost db dbUp id snapshot

/-- Client loading state as tracked by the hooks. -/
inductive LoadStatus where
  | loading : LoadStatus
  | ready : LoadStatus
  | error : LoadStatus
deriving Repr, DecidableEq

/-- The guard of loadFromDb in usePusherPersistence.ts deciding
whether the fetched snapshot is loaded: the body must be truthy and
its store object must have at least one key. -/
def snapshotStoreNonempty (v : JVal) : Bool :=
  match jGet v "store" with
  | some (JVal.jobj entries) => !(entries.isEmpty)
  | _ => false

/-- loadFromDb of usePusherPersistence.ts after the fetch resolved:
on an ok response a truthy snapshot with a non-empty store is loaded
into the tldraw store (first component true), otherwise local state is
kept; either way the hook then sets the ready state. The error state
is only reached from a thrown network error, not from any response. -/
def loadFromDb (resp : HResp) : Bool × LoadStatus :=
  if resp.status == 200 then
    if resp.body.truthy && snapshotStoreNonempty resp.body then
      (true, LoadStatus.ready)
    else (false, LoadStatus.ready)
  else (false, LoadStatus.ready)

/-- C6 counterexample: a POST whose snapshot field is the empty object
is an empty snapshot, yet the endpoint does not answer 400 and does
not leave the store unchanged: the empty object is truthy in
JavaScript, so the handler upserts it and answers 200. -/
theorem c6_counterexample :
    (drawingPost [] true "global-canvas" (some (JVal.jobj []))).2.status = 200 ∧
      (drawingPost [] true "global-canvas" (some (JVal.jobj []))).1 =
        [("global-canvas", JVal.jobj [])] := by
  constructor <;> rfl

/-- C6 as amended: the write endpoint answers 400 with the row
unchanged exactly when the snapshot field is absent or a JSON-falsy
value (null, empty string, zero, false); any truthy snapshot,
including an empty object, is upserted under the identity with a 200
response whose body contains success true; a storage failure on a
truthy snapshot answers 500 with the row unchanged. -/
theorem c6_durable_write_amended (db : List (String × JVal)) (id : String)
    (snapshot : Option JVal) (v : JVal) :
    ((snapshot = none ∨ (snapshot = some v ∧ v.truthy = false)) →
      ∀ dbUp, drawingPost db dbUp id snapshot =
        (db, ⟨400, JVal.jobj [("error", JVal.jstr "Snapshot is required")]⟩)) ∧
    ((snapshot = some v ∧ v.truthy = true) →
      drawingPost db true id snapshot =
        (aset db id v,
          ⟨200, JVal.jobj [("success", JVal.jbool true), ("timestamp", JVal.jnum 0)]⟩) ∧
      jGet (drawingPost db true id snapshot).2.body "success" = some (JVal.jbool true)) ∧
    ((snapshot = some v ∧ v.truthy = true) →
      drawingPost db false id snapshot =
        (db, ⟨500, JVal.jobj [("error", JVal.jstr "Database Error")]⟩)) := by
  refine ⟨?_, ?_, ?_⟩
  · rintro (h | ⟨h, hf⟩) dbUp
    · subst h; rfl
    · subst h; simp [drawingPost, hf]
  · rintro ⟨h, ht⟩
    subst h
    constructor
    · simp [drawingPost, ht]
    · simp [drawingPost, ht, jGet, jGet.go]
  · rintro ⟨h, ht⟩
    subst h
    simp [drawingPost, ht]

/-- C6 witness: the amended write behavior evaluated at a missing
snapshot and at the concrete truthy snapshot jstr x. -/
theorem c6_witness :
    drawingPost [] true "global-canvas" none =
      ([], ⟨400, JVal.jobj [("error", JVal.jstr "Snapshot is required")]⟩) ∧
    drawingPost [] true "global-canvas" (some (JVal.jstr "x")) =
      ([("global-canvas", JVal.jstr "x")],
        ⟨200, JVal.jobj [("success", JVal.jbool true), ("timestamp", JVal.jnum 0)]⟩) :=
  ⟨(c6_durable_write_amended [] "global-canvas" none JVal.null).1 (Or.inl rfl) true,
    ((c6_durable_write_amended [] "global-canvas" (some (JVal.jstr "x")) (JVal.jstr "x")).2.1
      ⟨rfl, by decide⟩).1⟩

/-- C7: when no row exists for the resolved identity, the GET branch
answers 200 with JSON null rather than failing, and the client passes
that body through loadFromDb without loading anything and lands in the
ready state, not the error state. -/
theorem c7_missing_row_ok (db : List (String × JVal)) (queryId : Option String)
    (h : alookup db (resolveId queryId none) = none) :
    drawingGet db true (resolveId queryId none) = ⟨200, JVal.null⟩ ∧
      loadFromDb (drawingGet db true (resolveId queryId none)) = (false, LoadStatus.ready) := by
  constructor
  · simp [drawingGet, h]
  · simp [drawingGet, h, loadFromDb, JVal.truthy]

/-- C7 witness: the missing-row behavior at an empty database and a
concrete request id. -/
theorem c7_witness :
    drawingGet [] true (resolveId (some "X") none) = ⟨200, JVal.null⟩ ∧
      loadFromDb (drawingGet [] true (resolveId (some "X") none)) =
        (false, LoadStatus.ready) :=
  c7_missing_row_ok [] (some "X") rfl

/-- C10: a request carrying no id in the query string and no id in the
body, or only empty-string ids, operates on the fixed identity
global-canvas: the id resolves to global-canvas, a GET reads the row
stored under global-canvas, and a POST of a truthy snapshot upserts
the row under global-canvas. -/
theorem c10_default_identity (queryId bodyId : Option String)
    (db : List (String × JVal)) (snap : JVal)
    (hq : queryId = none ∨ queryId = some "")
    (hb : bodyId = none ∨ bodyId = some "")
    (hs : snap.truthy = true) :
    resolveId queryId bodyId = "global-canvas" ∧
      drawingHandler Method.get queryId bodyId none db true =
        (db, drawingGet db true "global-canvas") ∧
      (drawingHandler Method.post queryId bodyId (some snap) db true).1 =
        aset db "global-canvas" snap := by
  have hid : resolveId queryId bodyId = "global-canvas" := by
    rcases hq with hq | hq <;> rcases hb with hb | hb <;> subst hq <;> subst hb <;> rfl
  refine ⟨hid, ?_, ?_⟩
  · simp [drawingHandler, hid]
  · simp [drawingHandler, hid, drawingPost, hs]

/-- C10 witness: defaulting evaluated at a request with an
empty-string query id, no body id, and a concrete snapshot. -/
theorem c10_witness :
    resolveId (some "") none = "global-canvas" ∧
      drawingHandler Method.get (some "") none none [] true =
        ([], drawingGet [] true "global-canvas") ∧
      (drawingHandler Method.post (some "") none (some (JVal.jstr "snap")) [] true).1 =
        aset [] "global-canvas" (JVal.jstr "snap") :=
  c10_default_identity (some "") none [] (JVal.jstr "snap")
    (Or.inr rfl) (Or.inl rfl) (by decide)

/-- PEvent is one event published on the realtime channel: channel
name, event name, payload, and the socket excluded from delivery. -/
structure PEvent where
  channel : String
  evName : String
  payload : JVal
  exceptSocket : Option String
deriving Repr

/-- Hard message-size limit of the realtime transport, about 10 KB. -/
def pusherLimit : Nat := 10000

/-- pusherTrigger models the external Pusher transport as the spec
describes it: publishing an event succeeds exactly when the serialized
payload is within the hard message-size limit; an oversized publish is
rejected by the transport with a 413 too-large error, modelled as the
none result, and nothing reaches the channel. -/
def pusherTrigger (channel evName : String) (payload : JVal) (sock : Option String) :
    Option PEvent :=
  if jsonSize payload ≤ pusherLimit then some ⟨channel, evName, payload, sock⟩ else none

/-- Id defaulting of the express routes in server.js: body id when
truthy, else the fixed identity global-canvas. -/
def jsIdOr (id : Option String) : String :=
  if strTruthy id then id.getD "" else "global-canvas"

/-- Body of the success response of the pusher-trigger route. -/
def okBody : JVal := JVal.jobj [("success", JVal.jbool true)]

/-- pusherTriggerExpress is the POST api pusher-trigger route of
server.js: persist a truthy snapshot, then, when changes are present,
publish the drawing-diff event; when the transport rejects it as too
large, publish a drawing-sync-request event instead; in every
non-throwing path respond 200 with a success true body. dbUp models
whether the snapshot upsert succeeds; a failed upsert throws into the
catch-all and answers 500 with nothing published. -/
def pusherTriggerExpress (id : Option String) (snapshot : Option JVal)
    (changes : Option JVal) (socketId : Option String)
    (db : List (String × JVal)) (dbUp : Bool) :
    List (String × JVal) × List PEvent × HResp :=
  let targetId := jsIdOr id
  let proceed : List (String × JVal) → List (String × JVal) × List PEvent × HResp :=
    fun db1 =>
      match changes with
      | some c =>
        if c.truthy then
          match pusherTrigger ("drawing-" ++ targetId) "drawing-diff"
              (JVal.jobj [("changes", c)]) socketId with
          | some ev => (db1, [ev], ⟨200, okBody⟩)
          | none =>
            match pusherTrigger ("drawing-" ++ targetId) "drawing-sync-request"
                (JVal.jobj []) socketId with
            | some ev2 => (db1, [ev2], ⟨200, okBody⟩)
            | none => (db1, [], ⟨500, JVal.jobj [("error", JVal.jstr "Pusher Error")]⟩)
        else (db1, [], ⟨200, okBody⟩)
      | none => (db1, [], ⟨200, okBody⟩)
  match snapshot with
  | some s =>
    if s.truthy then
      if dbUp then proceed (aset db targetId s)
      else (db, [], ⟨500, JVal.jobj [("error", JVal.jstr "Database Error")]⟩)
    else proceed db
  | none => proceed db

/-- A complete binary JSON object of the given depth with 85-character
strings at the leaves, used to build an oversized diff. -/
def deepVal : Nat → JVal
  | 0 => JVal.jstr (String.mk (List.replicate 85 'a'))
  | n + 1 => JVal.jobj [("a", deepVal n), ("b", deepVal n)]

/-- A diff payload whose serialized JSON is 12533 bytes, above the
10000-byte transport limit. -/
def bigDiffVal : JVal := deepVal 7

/-- The broadcast route evaluated on the oversized diff. -/
def c1Run : List (String × JVal) × List PEvent × HResp :=
  pusherTriggerExpress none none (some bigDiffVal) (some "sock") [] true

/-- C1 counterexample: submitting a diff whose serialized size is
12533 bytes does make the endpoint publish drawing-sync-request
instead of the diff, but the HTTP response is 200 with a success true
body, not 413, and the body has no error, size or message field. -/
theorem c1_counterexample :
    pusherLimit < jsonSize (JVal.jobj [("changes", bigDiffVal)]) ∧
      c1Run.2.2.status = 200 ∧
      ¬ c1Run.2.2.status = 413 ∧
      jGet c1Run.2.2.body "error" = none ∧
      c1Run.2.1 =
        [⟨"drawing-" ++ "global-canvas", "drawing-sync-request", JVal.jobj [], some "sock"⟩] := by
  refine ⟨by decide, rfl, by decide, rfl, rfl⟩

/-- C1 as amended: for every POST to the broadcast route whose diff
payload exceeds the transport limit, the diff is not published; a
drawing-sync-request event is published to the channel instead,
excluding the origin socket; and the HTTP response is 200 with a
success true body — the size fallback is not surfaced to the caller as
a 413. -/
theorem c1_size_fallback_amended (id : Option String) (changes : JVal)
    (socketId : Option String) (db : List (String × JVal))
    (h1 : changes.truthy = true)
    (h2 : pusherLimit < jsonSize (JVal.jobj [("changes", changes)])) :
    pusherTriggerExpress id none (some changes) socketId db true =
      (db,
        [⟨"drawing-" ++ jsIdOr id, "drawing-sync-request", JVal.jobj [], socketId⟩],
        ⟨200, okBody⟩) := by
  have hnot : ¬ jsonSize (JVal.jobj [("changes", changes)]) ≤ pusherLimit :=
    Nat.not_le.mpr h2
  have hsmall : jsonSize (JVal.jobj []) ≤ pusherLimit := by decide
  simp [pusherTriggerExpress, pusherTrigger, h1, hnot, hsmall]

/-- C1 witness: the amended fallback behavior evaluated on the
concrete 12014-byte diff. -/
theorem c1_witness :
    pusherTriggerExpress none none (some bigDiffVal) (some "sock") [] true =
      ([],
        [⟨"drawing-" ++ jsIdOr none, "drawing-sync-request", JVal.jobj [], some "sock"⟩],
        ⟨200, okBody⟩) :=
  c1_size_fallback_amended none bigDiffVal (some "sock") [] (by decide) (by decide)

/-- Snapshot as handled by the client hooks: the record map keyed by
record id plus a schema version. -/
structure Snapshot where
  store : List (String × Rec)
  schemaVersion : Nat
deriving Repr, DecidableEq

/-- Modelled from the spec: getSnapshot is the serialize-full-state
operation of the external Document Store collaborator (the tldraw
store), whose code is not part of this repository. Per the
filterSnapshot comments in useMongoosePersistence.ts, the unfiltered
serialization contains every record of the store, including
instance-specific ones such as camera, selection and pointer. -/
def getSnapshot (st : Store) : Snapshot := ⟨st, 2⟩

/-- Durable record kinds per the filterSnapshot helper of
useMongoosePersistence.ts: shape, asset, document and page. -/
def durableRecordKind (t : String) : Bool :=
  t == "shape" || t == "asset" || t == "page" || t == "document"

/-- filterSnapshot of useMongoosePersistence.ts: keep only records of
the durable kinds, dropping every instance-specific record. -/
def filterSnapshot (s : Snapshot) : Snapshot :=
  ⟨s.store.filter (fun e => durableRecordKind e.2.typeName), s.schemaVersion⟩

/-- doSaveToDbPayload is doSaveToDb of usePusherPersistence.ts up to
the network call: it returns the snapshot POSTed to the drawing
endpoint, or none when the guard clauses skip the save (not dirty, a
remote update is being applied and the save is not immediate, or the
serialized store is empty). The snapshot is not filtered. -/
def doSaveToDbPayload (isImmediate isDirty isRemote : Bool) (st : Store) : Option Snapshot :=
  if !isDirty || (isRemote && !isImmediate) then none
  else
    let snapshot := getSnapshot st
    if snapshot.store.isEmpty then none
    else some snapshot

/-- A store holding one camera record and one shape record. -/
def sessionStore : Store := [("camera:c1", recCamera), ("shape:s1", recS1)]

/-- C5 counterexample: the throttled durable save posts the unfiltered
snapshot, so a session-scoped camera record crosses the network inside
the payload sent to the durable write endpoint. -/
theorem c5_counterexample :
    doSaveToDbPayload false true false sessionStore = some ⟨sessionStore, 2⟩ ∧
      alookup ((doSaveToDbPayload false true false sessionStore).getD ⟨[], 2⟩).store
        "camera:c1" = some recCamera ∧
      durableRecordKind recCamera.typeName = false := by
  decide

/-- The pending diff accumulated over a whole window of change sets,
starting from the empty diff. -/
def accWindow (window : List Diff) : Diff :=
  window.foldl (fun p c => (accumulate p c).1) Diff.empty

/-- DiffFiltered states that every record reachable in a pending diff
(added and removed records, and the new value of every updated pair)
has a kind admitted by the accumulator. -/
def DiffFiltered (d : Diff) : Prop :=
  (∀ id r, alookup d.added id = some r → durableKind r.typeName = true) ∧
  (∀ id pr, alookup d.updated id = some pr → durableKind pr.2.typeName = true) ∧
  (∀ id r, alookup d.removed id = some r → durableKind r.typeName = true)

theorem foldl_preserve {α β : Type} (P : α → Prop) (f : α → β → α)
    (h : ∀ a b, P a → P (f a b)) : ∀ (l : List β) (a : α), P a → P (l.foldl f a) := by
  intro l
  induction l with
  | nil => intro a ha; simpa using ha
  | cons x xs ih => intro a ha; exact ih _ (h a x ha)

theorem diffFiltered_empty : DiffFiltered Diff.empty := by
  refine ⟨?_, ?_, ?_⟩ <;> intro id r h <;> simp [Diff.empty, alookup] at h

theorem diffFiltered_aset_added (p : Diff) (k : String) (v : Rec)
    (hp : DiffFiltered p) (hv : durableKind v.typeName = true) :
    DiffFiltered { p with added := aset p.added k v } := by
  obtain ⟨ha, hu, hr⟩ := hp
  refine ⟨?_, hu, hr⟩
  intro id r h
  rw [alookup_aset] at h
  by_cases hk : (k == id) = true
  · rw [hk] at h; simp at h; subst h; exact hv
  · rw [Bool.not_eq_true] at hk; rw [hk] at h; simp at h; exact ha id r h

theorem diffFiltered_aset_updated (p : Diff) (k : String) (v : Rec × Rec)
    (hp : DiffFiltered p) (hv : durableKind v.2.typeName = true) :
    DiffFiltered { p with updated := aset p.updated k v } := by
  obtain ⟨ha, hu, hr⟩ := hp
  refine ⟨ha, ?_, hr⟩
  intro id pr h
  rw [alookup_aset] at h
  by_cases hk : (k == id) = true
  · rw [hk] at h; simp at h; subst h; exact hv
  · rw [Bool.not_eq_true] at hk; rw [hk] at h; simp at h; exact hu id pr h

theorem diffFiltered_aset_removed (p : Diff) (k : String) (v : Rec)
    (hp : DiffFiltered p) (hv : durableKind v.typeName = true) :
    DiffFiltered { p with removed := aset p.removed k v } := by
  obtain ⟨ha, hu, hr⟩ := hp
  refine ⟨ha, hu, ?_⟩
  intro id r h
  rw [alookup_aset] at h
  by_cases hk : (k == id) = true
  · rw [hk] at h; simp at h; subst h; exact hv
  · rw [Bool.not_eq_true] at hk; rw [hk] at h; simp at h; exact hr id r h

theorem diffFiltered_accumulate (p : Diff) (c : Diff) (hp : DiffFiltered p) :
    DiffFiltered (accumulate p c).1 := by
  have step1 : ∀ (a : Diff × Bool) (e : String × Rec), DiffFiltered a.1 →
      DiffFiltered ((fun (acc : Diff × Bool) e =>
        let t := (e : String × Rec).2.typeName
        if t == "shape" || t == "asset" then
          ({ acc.1 with added := aset acc.1.added e.1 e.2 }, acc.2 || t == "asset")
        else acc) a e).1 := by
    intro a e ha
    by_cases hc : (e.2.typeName == "shape" || e.2.typeName == "asset") = true
    · simp only [hc, if_true]
      exact diffFiltered_aset_added a.1 e.1 e.2 ha (by simpa [durableKind] using hc)
    · rw [Bool.not_eq_true] at hc; simp only [hc]; simpa using ha
  have step2 : ∀ (a : Diff × Bool) (e : String × (Rec × Rec)), DiffFiltered a.1 →
      DiffFiltered ((fun (acc : Diff × Bool) e =>
        let t := (e : String × (Rec × Rec)).2.2.typeName
        if t == "shape" || t == "asset" then
          ({ acc.1 with updated := aset acc.1.updated e.1 e.2 }, acc.2 || t == "asset")
        else acc) a e).1 := by
    intro a e ha
    by_cases hc : (e.2.2.typeName == "shape" || e.2.2.typeName == "asset") = true
    · simp only [hc, if_true]
      exact diffFiltered_aset_updated a.1 e.1 e.2 ha (by simpa [durableKind] using hc)
    · rw [Bool.not_eq_true] at hc; simp only [hc]; simpa using ha
  have step3 : ∀ (a : Diff × Bool) (e : String × Rec), DiffFiltered a.1 →
      DiffFiltered ((fun (acc : Diff × Bool) e =>
        let t := (e : String × Rec).2.typeName
        if t == "shape" || t == "asset" then
          ({ acc.1 with removed := aset acc.1.removed e.1 e.2 }, acc.2)
        else acc) a e).1 := by
    intro a e ha
    by_cases hc : (e.2.typeName == "shape" || e.2.typeName == "asset") = true
    · simp only [hc, if_true]
      exact diffFiltered_aset_removed a.1 e.1 e.2 ha (by simpa [durableKind] using hc)
    · rw [Bool.not_eq_true] at hc; simp only [hc]; simpa using ha
  have h1 := foldl_preserve (fun (a : Diff × Bool) => DiffFiltered a.1) _ step1 c.added (p, false) hp
  have h2 := foldl_preserve (fun (a : Diff × Bool) => DiffFiltered a.1) _ step2 c.updated _ h1
  have h3 := foldl_preserve (fun (a : Diff × Bool) => DiffFiltered a.1) _ step3 c.removed _ h2
  exact h3

theorem diffFiltered_accWindow (window : List Diff) : DiffFiltered (accWindow window) := by
  have h := foldl_preserve DiffFiltered (fun p c => (accumulate p c).1)
    (fun p c hp => diffFiltered_accumulate p c hp) window Diff.empty diffFiltered_empty
  exact h

/-- C5 as amended: diffs sent to the broadcast endpoint are filtered
by the accumulator, so every record in a dispatched pending diff
(added, removed, and the new value of every updated pair) has kind
shape or asset and no session-scoped record ever appears in a diff;
the snapshot posted by the durable-save path, however, is unfiltered
(see the counterexample); the filterSnapshot helper used by the
drawing-update variant keeps exactly the durable kinds shape, asset,
page and document. -/
theorem c5_filtering_amended (window : List Diff) (id : String) (r : Rec)
    (pr : Rec × Rec) (snap : Snapshot) :
    (alookup (accWindow window).added id = some r → durableKind r.typeName = true) ∧
    (alookup (accWindow window).removed id = some r → durableKind r.typeName = true) ∧
    (alookup (accWindow window).updated id = some pr → durableKind pr.2.typeName = true) ∧
    (∀ e ∈ (filterSnapshot snap).store, durableRecordKind e.2.typeName = true) := by
  obtain ⟨ha, hu, hr⟩ := diffFiltered_accWindow window
  refine ⟨fun h => ha id r h, fun h => hr id r h, fun h => hu id pr h, ?_⟩
  intro e he
  have he2 : e ∈ snap.store.filter (fun q => durableRecordKind q.2.typeName) := he
  exact (List.mem_filter.mp he2).2

/-- C5 witness: the amended diff-filtering statement evaluated at a
one-edit window adding shape s1. -/
theorem c5_witness : durableKind recS1.typeName = true :=
  (c5_filtering_amended [⟨[("shape:s1", recS1)], [], []⟩] "shape:s1" recS1
    (recS1, recS1) ⟨[], 2⟩).1 (by decide)

/-- JSON encoding of one record as the client serializes it. -/
def Rec.toJVal (r : Rec) : JVal :=
  JVal.jobj [("id", JVal.jstr r.id), ("typeName", JVal.jstr r.typeName),
    ("payload", JVal.jnum r.payload)]

/-- JSON encoding of a snapshot: the store object keyed by record id
plus the schema object. -/
def Snapshot.toJVal (s : Snapshot) : JVal :=
  JVal.jobj [("store", JVal.jobj (s.store.map (fun e => (e.1, Rec.toJVal e.2)))),
    ("schema", JVal.jobj [("schemaVersion", JVal.jnum (Int.ofNat s.schemaVersion))])]

/-- serverlessTrigger is the pusher-trigger serverless handler (the
variant embedded in src/src/App.tsx): persist a truthy snapshot,
publish a drawing-reload event when triggerReload is set, publish a
drawing-diff event when changes are present, and answer 200 with a
success true body; a failed upsert or a transport rejection of the
diff answers 500. The reload payload is the empty object and is
always within the transport limit. -/
def serverlessTrigger (id : String) (snapshot : Option JVal) (changes : Option JVal)
    (triggerReload : Bool) (socketId : Option String)
    (db : List (String × JVal)) (dbUp : Bool) :
    List (String × JVal) × List PEvent × HResp :=
  let persisted : Option (List (String × JVal)) :=
    match snapshot with
    | some s => if s.truthy then (if dbUp then some (aset db id s) else none) else some db
    | none => some db
  match persisted with
  | none => (db, [], ⟨500, JVal.jobj [("error", JVal.jstr "Pusher/DB Operation Failed")]⟩)
  | some db1 =>
    let reloadEvs : List PEvent :=
      if triggerReload then
        (pusherTrigger ("drawing-" ++ id) "drawing-reload" (JVal.jobj []) socketId).toList
      else []
    match changes with
    | some c =>
      if c.truthy then
        match pusherTrigger ("drawing-" ++ id) "drawing-diff"
            (JVal.jobj [("changes", c)]) socketId with
        | some ev => (db1, reloadEvs ++ [ev], ⟨200, okBody⟩)
        | none =>
          (db1, reloadEvs, ⟨500, JVal.jobj [("error", JVal.jstr "Pusher/DB Operation Failed")]⟩)
      else (db1, reloadEvs, ⟨200, okBody⟩)
    | none => (db1, reloadEvs, ⟨200, okBody⟩)

/-- immediateAssetFlow chains the immediate branch of doSaveToDb of
usePusherPersistence.ts with the server side: the snapshot is POSTed
to the drawing endpoint, and only when that response is ok the client
POSTs a triggerReload request to the pusher-trigger endpoint, whose
handler publishes the drawing-reload event excluding the origin
socket. The result is the final database, the published events, and
the drawing POST response. When the guard clauses of doSaveToDb skip
the save no request is made, modelled by status 0. -/
def immediateAssetFlow (st : Store) (isDirty isRemote : Bool) (sock : Option String)
    (db : List (String × JVal)) (dbUp : Bool) :
    List (String × JVal) × List PEvent × HResp :=
  match doSaveToDbPayload true isDirty isRemote st with
  | none => (db, [], ⟨0, JVal.null⟩)
  | some snap =>
    let post := drawingPost db dbUp "global-canvas" (some (Snapshot.toJVal snap))
    if post.2.status == 200 then
      let trig := serverlessTrigger "global-canvas" none none true sock post.1 dbUp
      (trig.1, trig.2.1, post.2)
    else (post.1, [], post.2)

/-- C8: a local user mutation whose accumulated changes contain an
added or updated asset record makes the listener request exactly one
immediate save, with no broadcast and no throttled save; the
immediate flow upserts the full unthrottled snapshot at the durable
endpoint and publishes a single drawing-reload event (no drawing-diff)
excluding the origin socket; a subsequent durable read returns that
snapshot, whose store contains the new asset record. -/
theorem c8_asset_immediate_reload (u : StoreUpdate) (cs : ClientState) (st : Store)
    (db : List (String × JVal)) (sock : Option String) (aid : String) (arec : Rec)
    (hsrc : u.source = Source.user)
    (hAsset : (accumulate cs.pending u.changes).2 = true)
    (hin : alookup st aid = some arec) :
    (listenCallback u cs).2 = [Effect.immediateSave] ∧
    immediateAssetFlow st true false sock db true =
      (aset db "global-canvas" (Snapshot.toJVal (getSnapshot st)),
        [⟨"drawing-" ++ "global-canvas", "drawing-reload", JVal.jobj [], sock⟩],
        ⟨200, JVal.jobj [("success", JVal.jbool true), ("timestamp", JVal.jnum 0)]⟩) ∧
    drawingGet (aset db "global-canvas" (Snapshot.toJVal (getSnapshot st))) true
        "global-canvas" = ⟨200, Snapshot.toJVal (getSnapshot st)⟩ ∧
    alookup ((getSnapshot st).store.map (fun e => (e.1, Rec.toJVal e.2))) aid =
      some (Rec.toJVal arec) := by
  have hne : st.isEmpty = false := by
    cases st with
    | nil => simp [alookup] at hin
    | cons p rest => rfl
  have hpayload : doSaveToDbPayload true true false st = some (getSnapshot st) := by
    simp [doSaveToDbPayload, getSnapshot, hne]
  have hsmall : jsonSize (JVal.jobj []) ≤ pusherLimit := by decide
  refine ⟨?_, ?_, ?_, ?_⟩
  · simp [listenCallback, hsrc, hAsset]
  · simp [immediateAssetFlow, hpayload, drawingPost, Snapshot.toJVal, JVal.truthy,
      serverlessTrigger, pusherTrigger, hsmall]
  · simp [drawingGet, alookup_aset]
  · rw [getSnapshot]
    show alookup (st.map (fun e => (e.1, Rec.toJVal e.2))) aid = some (Rec.toJVal arec)
    rw [alookup_map_value, hin]
    rfl

/-- C8 witness: the immediate-save effect evaluated at a concrete
user mutation adding asset a1. -/
theorem c8_witness :
    (listenCallback ⟨Source.user, ⟨[("asset:a1", recAsset)], [], []⟩⟩
      ⟨false, Diff.empty⟩).2 = [Effect.immediateSave] :=
  (c8_asset_immediate_reload ⟨Source.user, ⟨[("asset:a1", recAsset)], [], []⟩⟩
    ⟨false, Diff.empty⟩ [("asset:a1", recAsset)] [] (some "sockA") "asset:a1" recAsset
    rfl (by decide) (by decide)).1

end Drewit
